import Mathlib

/-!
Verification of the mitmproxy console options panel
(`mitmproxy/tools/console/options.py`): the live-binding list/cursor engine
(`OptionListWalker`), the row renderer (`OptionItem.get_widget`), and the
top-level keypress dispatch (`OptionsList.keypress`).

The embedding is shallow: each Python method becomes a Lean function on an
explicit state record.  Operations that can raise an uncaught Python exception
(IndexError from `self.opts[pos]`, KeyError from `_options[name]`,
AttributeError from calling `get_edit_text` on a non-edit widget) return
`Option`/an error constructor; `none` models the exception escaping the
method (field writes executed before the raise are not retained, since the
surrounding event loop state is out of scope).  The external `LiveOptionStore`
(`mitmproxy.optmanager`) is modelled only at its interface boundary.
-/

namespace MitmOptions

/-- The option typespecs distinguished by `options.py`: `bool`, `str`, `int`,
`Optional[str]`, `Optional[int]`, `Sequence[str]`, and `other` for any
further Python type (the dispatch in `OptionsList.keypress` has a catch-all
`else: raise NotImplementedError()`). -/
inductive Typespec where
  | boolT
  | str
  | int
  | optStr
  | optInt
  | seqStr
  | other
deriving DecidableEq, Repr

/-- A Python option value as far as the panel observes it: a bool, a string,
an integer, `None`, or a sequence of strings. -/
inductive OptValue where
  | vBool (b : Bool)
  | vStr (s : String)
  | vInt (n : Int)
  | vNone
  | vSeq (xs : List String)
deriving DecidableEq, Repr

/-- Python truthiness of a value (`if val:` / `if not val:`). -/
def OptValue.truthy : OptValue → Bool
  | .vBool b => b
  | .vStr s => s ≠ ""
  | .vInt n => n ≠ 0
  | .vNone => false
  | .vSeq xs => xs ≠ []

/-- The string items of a sequence value (a `Sequence[str]` option's
current value); `[]` for non-sequence values. -/
def OptValue.seqItems : OptValue → List String
  | .vSeq xs => xs
  | _ => []

/-- Python `repr` of a string, as `pprint` renders sequence elements
(escaping inside the string is not modelled). -/
def pyRepr (s : String) : String := "'" ++ s ++ "'"

/-- Python `str(val)` for the values above. -/
def OptValue.pyStr : OptValue → String
  | .vBool b => if b then "True" else "False"
  | .vStr s => s
  | .vInt n => toString n
  | .vNone => "None"
  | .vSeq xs => "[" ++ String.intercalate ", " (xs.map pyRepr) ++ "]"

/-- One-line rendering of a string sequence, `repr`-style. -/
def pformatOneLine (xs : List String) : String :=
  "[" ++ String.intercalate ", " (xs.map pyRepr) ++ "]"

/-- Model of `pprint.pformat(val, indent=1)` (Python stdlib, external to the
repo): the one-line repr when it fits in the default width of 80 columns,
otherwise one element per line with indent 1. -/
def pformat (xs : List String) : String :=
  if (pformatOneLine xs).length ≤ 80 then pformatOneLine xs
  else "[" ++ String.intercalate ",\n " (xs.map pyRepr) ++ "]"

/-- An option as held by the external store (`optmanager._Option`): name,
typespec, optional choices (`[]` = no choices, matching Python falsiness of
`None`/empty), current value, default value and help text. -/
structure Opt where
  name : String
  typespec : Typespec
  choices : List String
  value : OptValue
  defaultVal : OptValue
  help : String
deriving DecidableEq, Repr

/-- Modelled from the spec: the external `LiveOptionStore` (§6) holds named
options with current values; the panel reads it through `keys()`,
`_options[name]`, `has_changed`, and mutates it only through
`set`/`toggler`.  We model it as the list of its options. -/
structure Store where
  opts : List Opt
deriving DecidableEq, Repr

/-- Name lookup, `self.master.options._options[name]` (`None` = KeyError). -/
def Store.lookup (st : Store) (name : String) : Option Opt :=
  st.opts.find? (fun o => o.name = name)

/-- `self.master.options.keys()`. -/
def Store.keys (st : Store) : List String := st.opts.map (·.name)

/-- Modelled from the spec: `hasChanged` is "current value differs from
default — derived from the store" (§3); exposed as `has_changed(name)` (§6). -/
def Store.has_changed (st : Store) (name : String) : Bool :=
  match st.lookup name with
  | some o => o.value ≠ o.defaultVal
  | none => false

/-- Modelled from the spec: `toggle(name) -> callable that flips a boolean
option` (§6).  `self.master.options.toggler(foc.opt.name)()`. -/
def Store.toggler (st : Store) (name : String) : Store :=
  { opts := st.opts.map (fun o =>
      if o.name = name then
        { o with value := match o.value with
                          | .vBool b => .vBool (!b)
                          | v => v }
      else o) }

/-- `can_edit_inplace(opt)` (options.py:18-22): `False` when the option has
choices; `True` when the typespec is `str`, `int`, `Optional[str]` or
`Optional[int]`; otherwise the Python function falls through and returns
`None`, which is falsy — modelled as `false`. -/
def can_edit_inplace (opt : Opt) : Bool :=
  if opt.choices ≠ [] then false
  else opt.typespec = .str ∨ opt.typespec = .int ∨
       opt.typespec = .optStr ∨ opt.typespec = .optInt

/-- The display text computed by `OptionItem.get_widget` (options.py:38-47):
`"true"`/`"false"` for `bool`-typed options, `""` for a falsy value,
`pprint.pformat(val, indent=1)` for `Sequence[str]`, else `str(val)`. -/
def displayVal (opt : Opt) : String :=
  if opt.typespec = .boolT then (if opt.value.truthy then "true" else "false")
  else if !opt.value.truthy then ""
  else if opt.typespec = .seqStr then pformat opt.value.seqItems
  else opt.value.pyStr

/-- An `OptionItem` row widget: the option it renders, the `focused` and
`editing` flags, the name-column width, the value style chosen by
`get_widget`, and — when editing — the text of the `urwid.Edit` widget
(seeded from the display value; `none` in display mode, where calling
`get_edit_text` would raise AttributeError). -/
structure Item where
  opt : Opt
  focused : Bool
  namewidth : Nat
  editing : Bool
  valstyle : String
  editText : Option String
deriving DecidableEq, Repr

/-- `OptionItem.__init__` + `get_widget` (options.py:30-72). -/
def mkItem (st : Store) (opt : Opt) (focused : Bool) (namewidth : Nat)
    (editing : Bool) : Item :=
  let changed := st.has_changed opt.name
  let valstyle :=
    if focused then (if changed then "option_active_selected" else "option_selected")
    else (if changed then "option_active" else "text")
  { opt, focused, namewidth, editing, valstyle,
    editText := if editing then some (displayVal opt) else none }

/-- The mutable state of `OptionListWalker`: sorted option names (`opts`),
the name-column width (`maxlen`), the focused index, the `editing` flag, the
cached focus widget (`focus_obj`) and the bound help widget's current text. -/
structure Walker where
  opts : List String
  maxlen : Nat
  index : Nat
  editing : Bool
  focusObj : Option Item
  helpText : String
deriving DecidableEq, Repr

/-- The panel state the keypress dispatcher acts on: the external store plus
the walker.  Python methods mutate `self.*` (the walker) and reach the store
through `self.master.options`. -/
structure PanelState where
  store : Store
  walker : Walker
deriving DecidableEq, Repr

/-- `OptionListWalker._get(pos, editing)` (options.py:121-124): look the name
up at `pos` (IndexError when out of range), fetch the option from the store
(KeyError when absent) and build a fresh `OptionItem`. -/
def getItem (s : PanelState) (pos : Nat) (editing : Bool) : Option Item :=
  match s.walker.opts[pos]? with
  | none => none
  | some name =>
    match s.store.lookup name with
    | none => none
    | some opt =>
      some (mkItem s.store opt (pos == s.walker.index) s.walker.maxlen editing)

/-- `OptionListWalker.set_focus(index)` (options.py:129-136): clear `editing`,
look up the name and option at `index`, install the index, rebuild the focus
widget via `_get(index, editing)`, and push the option's help text to the
help widget. -/
def setFocus (s : PanelState) (index : Nat) : Option PanelState :=
  match s.walker.opts[index]? with
  | none => none
  | some name =>
    match s.store.lookup name with
    | none => none
    | some opt =>
      match getItem
          { s with walker := { s.walker with editing := false, index := index } }
          index false with
      | none => none
      | some fo =>
        some { s with walker :=
          { s.walker with editing := false, index := index,
                          focusObj := some fo, helpText := opt.help } }

/-- Lexicographic comparison of character lists by code point: the order
Python's `sorted` uses on strings.  A prefix compares below any of its
extensions. -/
def charListLe : List Char → List Char → Bool
  | [], _ => true
  | _ :: _, [] => false
  | a :: as, b :: bs =>
    if a.toNat < b.toNat then true
    else if b.toNat < a.toNat then false
    else charListLe as bs

/-- Ascending lexicographic (code-point) order on strings, Python's string
comparison. -/
def pyLe (a b : String) : Prop := charListLe a.data b.data = true

instance : DecidableRel pyLe := fun a b =>
  inferInstanceAs (Decidable (charListLe a.data b.data = true))

/-- `sorted(self.master.options.keys())`: Python's ascending lexicographic
sort, modelled by Mathlib's stable insertion sort under `pyLe`. -/
def sortedKeys (st : Store) : List String :=
  st.keys.insertionSort pyLe

/-- `max(len(i) for i in self.opts)`: raises ValueError on an empty name
set, hence `Option`. -/
def maxNameLen : List String → Option Nat
  | [] => none
  | l => some ((l.map String.length).foldl max 0)

/-- `OptionListWalker.sig_mod` (options.py:101-105): recompute the sorted
name list and `maxlen` from the store, then `set_focus(self.index)` with the
*unchanged* previous index. -/
def sigMod (s : PanelState) : Option PanelState :=
  match maxNameLen (sortedKeys s.store) with
  | none => none
  | some maxlen =>
    setFocus
      { s with walker :=
        { s.walker with opts := sortedKeys s.store, maxlen := maxlen } }
      s.walker.index

/-- `OptionListWalker.start_editing` (options.py:107-110): set `editing` and
rebuild the focus widget in edit mode. -/
def startEditing (s : PanelState) : Option PanelState :=
  match getItem { s with walker := { s.walker with editing := true } }
      s.walker.index true with
  | none => none
  | some fo =>
    some { s with walker :=
      { s.walker with editing := true, focusObj := some fo } }

/-- `OptionListWalker.stop_editing` (options.py:112-116): clear `editing`,
rebuild the focus widget in display mode, then `set_focus(self.index)`. -/
def stopEditing (s : PanelState) : Option PanelState :=
  match getItem { s with walker := { s.walker with editing := false } }
      s.walker.index false with
  | none => none
  | some fo =>
    setFocus
      { s with walker :=
        { s.walker with editing := false, focusObj := some fo } }
      s.walker.index

/-- `OptionListWalker.get_focus` (options.py:126-127). -/
def getFocus (s : PanelState) : Option Item × Nat :=
  (s.walker.focusObj, s.walker.index)

/-- `OptionListWalker.get_next(pos)` (options.py:138-142): `(None, None)`
when `pos >= len(self.opts) - 1` (for natural `pos` this is
`len ≤ pos + 1`), otherwise the freshly built row at `pos + 1` with the new
position; the row is built with `editing=False`. -/
def getNext (s : PanelState) (pos : Nat) : Option (Option Item × Option Nat) :=
  if s.walker.opts.length ≤ pos + 1 then some (none, none)
  else
    match getItem s (pos + 1) false with
    | none => none
    | some it => some (some it, some (pos + 1))

/-- `OptionListWalker.get_prev(pos)` (options.py:144-148): `(None, None)`
when `pos - 1 < 0` (for natural `pos`: `pos = 0`), otherwise the freshly
built row at `pos - 1`, with `editing=False`. -/
def getPrev (s : PanelState) (pos : Nat) : Option (Option Item × Option Nat) :=
  match pos with
  | 0 => some (none, none)
  | p + 1 =>
    match getItem s p false with
    | none => none
    | some it => some (some it, some p)

/-- `OptionListWalker.positions(reverse)` (options.py:150-154). -/
def positions (s : PanelState) (reverse : Bool) : List Nat :=
  if reverse then (List.range s.walker.opts.length).reverse
  else List.range s.walker.opts.length

/-- `HELP_HEIGHT` (options.py:15). -/
def HELP_HEIGHT : Nat := 5

/-- An overlay the panel may open from the `m_select` dispatch:
`overlay.Chooser` for choice-bearing options, `overlay.OptionsOverlay` for
`Sequence[str]` options. -/
inductive Overlay where
  | chooser (name : String) (choices : List String) (current : OptValue)
  | optionsOverlay (name : String) (current : OptValue) (height : Nat)
deriving DecidableEq, Repr

/-- An uncaught Python exception escaping `OptionsList.keypress`. -/
inductive PanelError where
  | notImplemented
  | indexError
  | attributeError
deriving DecidableEq, Repr

/-- Result of one `OptionsList.keypress` call: the new panel state together
with the status messages sent, the overlays opened, and the key forwarded to
`super().keypress` (`none` when the handler returned `None`) — or an
uncaught exception. -/
inductive KeyResult where
  | ok (s : PanelState) (msgs : List String) (overlays : List Overlay)
       (forward : Option String)
  | err (e : PanelError)
deriving DecidableEq, Repr

/-- The `editing` flag of the resulting walker (`false` on exception). -/
def KeyResult.editingOf : KeyResult → Bool
  | .ok s _ _ _ => s.walker.editing
  | .err _ => false

/-- The overlays opened by a keypress (`[]` on exception). -/
def KeyResult.overlaysOf : KeyResult → List Overlay
  | .ok _ _ ovs _ => ovs
  | .err _ => []

/-- Modelled from the spec: `set(name, textValue) -> fails with
ValidationError on malformed/out-of-range input` (§6), leaving the value
unchanged on failure (§7/§8).  The panel calls it as
`self.master.options.set(f"{name}={v}")`; we keep it abstract as a
parameter: success returns the updated store, failure returns the error
message (`str(e)`). -/
def SetFn : Type := Store → String → Except String Store

/-- `OptionsList.keypress(size, key)` (options.py:169-221).  In editing mode
`enter` commits the edit buffer via `options.set(f"{name}={v}")`, surfacing
an `OptionsError` as a status message, then always calls `stop_editing`;
`esc` just calls `stop_editing`; any other key reaches the focused
`OptionItem`, which forwards it to the internal `urwid.Edit` widget
(external urwid behaviour, its buffer mutation is not modelled) and consumes
it.  In navigating mode `m_start`/`m_end` jump the focus, `m_select`
dispatches on the focused option's type, and every key falls through to
`super().keypress` (forwarded). -/
def keypress (setFn : SetFn) (s : PanelState) (key : String) : KeyResult :=
  if s.walker.editing then
    if key = "enter" then
      match s.walker.focusObj with
      | none => .err .attributeError
      | some foc =>
        match foc.editText with
        | none => .err .attributeError
        | some v =>
          match setFn s.store (foc.opt.name ++ "=" ++ v) with
          | .ok st1 =>
            match stopEditing { s with store := st1 } with
            | none => .err .indexError
            | some s1 => .ok s1 [] [] none
          | .error msg =>
            match stopEditing s with
            | none => .err .indexError
            | some s1 => .ok s1 [msg] [] none
    else if key = "esc" then
      match stopEditing s with
      | none => .err .indexError
      | some s1 => .ok s1 [] [] none
    else
      .ok s [] [] none
  else
    if key = "m_start" then
      match setFocus s 0 with
      | none => .err .indexError
      | some s1 => .ok s1 [] [] (some key)
    else if key = "m_end" then
      match setFocus s (s.walker.opts.length - 1) with
      | none => .err .indexError
      | some s1 => .ok s1 [] [] (some key)
    else if key = "m_select" then
      match s.walker.focusObj with
      | none => .err .attributeError
      | some foc =>
        if foc.opt.typespec = .boolT then
          match setFocus { s with store := s.store.toggler foc.opt.name }
              s.walker.index with
          | none => .err .indexError
          | some s1 => .ok s1 [] [] (some key)
        else if can_edit_inplace foc.opt then
          match startEditing s with
          | none => .err .indexError
          | some s1 => .ok s1 [] [] (some key)
        else if foc.opt.choices ≠ [] then
          .ok s []
            [.chooser foc.opt.name foc.opt.choices foc.opt.value] (some key)
        else if foc.opt.typespec = .seqStr then
          .ok s []
            [.optionsOverlay foc.opt.name foc.opt.value (HELP_HEIGHT + 5)]
            (some key)
        else
          .err .notImplemented
    else
      .ok s [] [] (some key)

/-- Well-formedness that the live system maintains: every name in the
walker's sorted list resolves in the store. -/
def WF (s : PanelState) : Prop :=
  ∀ name ∈ s.walker.opts, (s.store.lookup name).isSome

instance (s : PanelState) : Decidable (WF s) := by
  unfold WF
  infer_instance

/-!
Concrete example states, mirroring §8 of the spec: a small store with an
integer option, a boolean, a choice-bearing string, a string sequence, an
option of an unknown type (for the `NotImplementedError` branch) and a
boolean that also declares choices (for the dispatch-order check).
-/

def optTimeout : Opt :=
  { name := "timeout", typespec := .int, choices := [],
    value := .vInt 5, defaultVal := .vInt 5, help := "timeout help" }

def optVerbose : Opt :=
  { name := "verbose", typespec := .boolT, choices := [],
    value := .vBool false, defaultVal := .vBool false, help := "verbose help" }

def optMode : Opt :=
  { name := "mode", typespec := .str, choices := ["regular", "socks5"],
    value := .vStr "regular", defaultVal := .vStr "regular",
    help := "mode help" }

def optScripts : Opt :=
  { name := "scripts", typespec := .seqStr, choices := [],
    value := .vSeq ["a.py"], defaultVal := .vSeq [], help := "scripts help" }

def optOther : Opt :=
  { name := "zother", typespec := .other, choices := [],
    value := .vNone, defaultVal := .vNone, help := "zother help" }

def optBoolChoices : Opt :=
  { name := "bc", typespec := .boolT, choices := ["true", "false"],
    value := .vBool false, defaultVal := .vBool false, help := "bc help" }

def optEmptyStr : Opt :=
  { name := "emptystr", typespec := .str, choices := [],
    value := .vStr "", defaultVal := .vStr "", help := "emptystr help" }

def demoStore : Store :=
  { opts := [optTimeout, optVerbose, optMode, optScripts, optOther,
             optBoolChoices] }

def demoNames : List String :=
  ["bc", "mode", "scripts", "timeout", "verbose", "zother"]

def demoState (i : Nat) (editing : Bool) (fo : Option Item) : PanelState :=
  { store := demoStore,
    walker := { opts := demoNames, maxlen := 7, index := i,
                editing := editing, focusObj := fo, helpText := "" } }

def bcItem : Item := mkItem demoStore optBoolChoices true 7 false

def otherItem : Item := mkItem demoStore optOther true 7 false

def seqItem : Item := mkItem demoStore optScripts true 7 false

def timeoutEditItem : Item := mkItem demoStore optTimeout true 7 true

/-- A `set` behaviour that accepts everything, leaving the store as is. -/
def okSet : SetFn := fun st _ => .ok st

/-- A `set` behaviour that rejects everything with a fixed error text. -/
def failSet : SetFn := fun _ _ => .error "invalid value"

def c1In : PanelState :=
  { store := demoStore,
    walker := { opts := ["stale"], maxlen := 5, index := 2,
                editing := true, focusObj := none, helpText := "" } }

def c1Out : PanelState := (sigMod c1In).getD c1In

/-- A state just after the store's key set shrank from two options to one
while the walker still focuses index 1. -/
def c1Bad : PanelState :=
  { store := { opts := [optTimeout] },
    walker := { opts := ["timeout", "verbose"], maxlen := 7, index := 1,
                editing := false, focusObj := none, helpText := "" } }

def c2In : PanelState := demoState 3 true (some timeoutEditItem)

def c3In : PanelState := demoState 2 false (some seqItem)

def c4In : PanelState := demoState 0 false none

def c4Out : PanelState := (setFocus c4In 2).getD c4In

def c6In : PanelState := demoState 0 false none

def c7In : PanelState := demoState 3 false none

def c7Mid : PanelState := (startEditing c7In).getD c7In

def c7Out : PanelState := (stopEditing c7Mid).getD c7In

def c8In : PanelState := demoState 5 false (some otherItem)

def c9In : PanelState := demoState 0 false none

def c9Item : Item :=
  (getItem c9In 1 false).getD (mkItem demoStore optTimeout false 7 false)

def c9Mid : PanelState := (startEditing c9In).getD c9In

def c10In : PanelState := demoState 0 false (some bcItem)

/-! Helper lemmas shared by the claim theorems. -/

theorem charListLe_total : ∀ as bs, charListLe as bs = true ∨
    charListLe bs as = true := by
  intro as
  induction as with
  | nil =>
    intro bs
    left
    rfl
  | cons a as ih =>
    intro bs
    cases bs with
    | nil =>
      right
      rfl
    | cons b bs =>
      by_cases h1 : a.toNat < b.toNat
      · left
        simp [charListLe, h1]
      · by_cases h2 : b.toNat < a.toNat
        · right
          simp [charListLe, h2]
        · rcases ih bs with h | h
          · left
            simpa [charListLe, h1, h2] using h
          · right
            simpa [charListLe, h1, h2] using h

theorem charListLe_trans : ∀ as bs cs, charListLe as bs = true →
    charListLe bs cs = true → charListLe as cs = true := by
  intro as
  induction as with
  | nil =>
    intro bs cs _ _
    rfl
  | cons a as ih =>
    intro bs cs h1 h2
    cases bs with
    | nil => simp [charListLe] at h1
    | cons b bs =>
      cases cs with
      | nil => simp [charListLe] at h2
      | cons c cs =>
        by_cases hab : a.toNat < b.toNat
        · by_cases hbc : b.toNat < c.toNat
          · have hac : a.toNat < c.toNat := Nat.lt_trans hab hbc
            simp [charListLe, hac]
          · by_cases hcb : c.toNat < b.toNat
            · simp [charListLe, hbc, hcb] at h2
            · have hac : a.toNat < c.toNat := by omega
              simp [charListLe, hac]
        · by_cases hba : b.toNat < a.toNat
          · simp [charListLe, hab, hba] at h1
          · have h1t : charListLe as bs = true := by
              simpa [charListLe, hab, hba] using h1
            by_cases hbc : b.toNat < c.toNat
            · have hac : a.toNat < c.toNat := by omega
              simp [charListLe, hac]
            · by_cases hcb : c.toNat < b.toNat
              · simp [charListLe, hbc, hcb] at h2
              · have h2t : charListLe bs cs = true := by
                  simpa [charListLe, hbc, hcb] using h2
                have hac1 : ¬ a.toNat < c.toNat := by omega
                have hac2 : ¬ c.toNat < a.toNat := by omega
                simp only [charListLe, if_neg hac1, if_neg hac2]
                exact ih bs cs h1t h2t

instance : IsTotal String pyLe where
  total a b := charListLe_total a.data b.data

instance : IsTrans String pyLe where
  trans a b c h1 h2 := charListLe_trans a.data b.data c.data h1 h2

theorem getItem_fields (s : PanelState) (pos : Nat) (b : Bool) (it : Item)
    (h : getItem s pos b = some it) :
    it.editing = b ∧
    it.editText = (if b then some (displayVal it.opt) else none) := by
  unfold getItem at h
  split at h
  · exact absurd h (by simp)
  · split at h
    · exact absurd h (by simp)
    · rw [Option.some_inj] at h
      subst h
      simp [mkItem]

theorem getItem_isSome (s : PanelState) (hWF : WF s) (pos : Nat) (b : Bool)
    (hlt : pos < s.walker.opts.length) :
    ∃ it, getItem s pos b = some it := by
  have hn : s.walker.opts[pos]? = some s.walker.opts[pos] :=
    List.getElem?_eq_getElem hlt
  have hmem : s.walker.opts[pos] ∈ s.walker.opts := List.getElem_mem hlt
  have hl := hWF _ hmem
  rw [Option.isSome_iff_exists] at hl
  obtain ⟨opt, hopt⟩ := hl
  refine ⟨mkItem s.store opt (pos == s.walker.index) s.walker.maxlen b, ?_⟩
  unfold getItem
  rw [hn]
  simp [hopt]

theorem setFocus_some (s : PanelState) (i : Nat) (s' : PanelState)
    (h : setFocus s i = some s') :
    s'.store = s.store ∧ s'.walker.opts = s.walker.opts ∧
    s'.walker.maxlen = s.walker.maxlen ∧
    s'.walker.index = i ∧ s'.walker.editing = false ∧
    i < s.walker.opts.length ∧
    (∃ fo, s'.walker.focusObj = some fo ∧ fo.editing = false ∧
      fo.editText = none) := by
  unfold setFocus at h
  split at h
  · exact absurd h (by simp)
  · rename_i name hname
    split at h
    · exact absurd h (by simp)
    · split at h
      · exact absurd h (by simp)
      · rename_i fo hfo
        rw [Option.some_inj] at h
        subst h
        have hflds := getItem_fields _ _ _ _ hfo
        have hlt : i < s.walker.opts.length := by
          have := List.getElem?_eq_some_iff.mp hname
          exact this.1
        refine ⟨rfl, rfl, rfl, rfl, rfl, hlt, fo, rfl, hflds.1, ?_⟩
        rw [hflds.2]
        simp

theorem startEditing_some (s : PanelState) (s' : PanelState)
    (h : startEditing s = some s') :
    s'.store = s.store ∧ s'.walker.opts = s.walker.opts ∧
    s'.walker.index = s.walker.index ∧ s'.walker.editing = true ∧
    (∃ fo, s'.walker.focusObj = some fo ∧ fo.editing = true ∧
      fo.editText = some (displayVal fo.opt)) := by
  unfold startEditing at h
  split at h
  · exact absurd h (by simp)
  · rename_i fo hfo
    rw [Option.some_inj] at h
    subst h
    have hflds := getItem_fields _ _ _ _ hfo
    refine ⟨rfl, rfl, rfl, rfl, fo, rfl, hflds.1, ?_⟩
    rw [hflds.2]
    simp

theorem stopEditing_some (s : PanelState) (s' : PanelState)
    (h : stopEditing s = some s') :
    s'.store = s.store ∧ s'.walker.opts = s.walker.opts ∧
    s'.walker.index = s.walker.index ∧ s'.walker.editing = false ∧
    (∃ fo, s'.walker.focusObj = some fo ∧ fo.editing = false ∧
      fo.editText = none) := by
  unfold stopEditing at h
  split at h
  · exact absurd h (by simp)
  · have hs := setFocus_some _ _ _ h
    obtain ⟨h1, h2, _, h4, h5, _, fo, h7, h8, h9⟩ := hs
    exact ⟨h1, h2, h4, h5, fo, h7, h8, h9⟩

/-! Claim theorems. -/

/-- C4: every call to `set_focus(index)` that installs a new focus (for any
in-range index, in any cursor state) sets `editing` to `false` before
installing the new focus object: the resulting walker is in display mode at
the requested index and its focus widget carries no pending edit buffer. -/
theorem claim_C4 (s : PanelState) (i : Nat) (s' : PanelState)
    (h : setFocus s i = some s') :
    s'.walker.editing = false ∧ s'.walker.index = i ∧
    (∃ fo, s'.walker.focusObj = some fo ∧ fo.editing = false ∧
      fo.editText = none) := by
  obtain ⟨_, _, _, h4, h5, _, hfo⟩ := setFocus_some s i s' h
  exact ⟨h5, h4, hfo⟩

/-- C7: `start_editing()` followed immediately by `stop_editing()` with no
commit performs no store mutation — the store is exactly the one the pair
started from — and the cursor returns to display mode at the same focus
index. -/
theorem claim_C7 (s s₁ s₂ : PanelState)
    (h1 : startEditing s = some s₁) (h2 : stopEditing s₁ = some s₂) :
    s₂.store = s.store ∧ s₂.walker.index = s.walker.index ∧
    s₂.walker.editing = false ∧
    (∃ fo, s₂.walker.focusObj = some fo ∧ fo.editing = false ∧
      fo.editText = none) := by
  obtain ⟨ha1, _, ha3, _, _⟩ := startEditing_some s s₁ h1
  obtain ⟨hb1, _, hb3, hb4, hfo⟩ := stopEditing_some s₁ s₂ h2
  exact ⟨hb1.trans ha1, hb3.trans ha3, hb4, hfo⟩

/-- C9: rows produced by the lazy iteration primitives `get_next`/`get_prev`
always carry `editing = False` (and hence no edit buffer), even while an
edit is in progress at the focused index; only the focus object installed by
`start_editing` carries `editing = True`. -/
theorem claim_C9 (s : PanelState) (pos : Nat) (it : Item) (p' : Option Nat) :
    (getNext s pos = some (some it, p') →
      it.editing = false ∧ it.editText = none) ∧
    (getPrev s pos = some (some it, p') →
      it.editing = false ∧ it.editText = none) ∧
    (∀ s₁, startEditing s = some s₁ →
      ∃ fo, s₁.walker.focusObj = some fo ∧ fo.editing = true) := by
  refine ⟨?_, ?_, ?_⟩
  · intro h
    unfold getNext at h
    split at h
    · simp at h
    · split at h
      · exact absurd h (by simp)
      · rename_i it' hit
        rw [Option.some_inj, Prod.mk.injEq] at h
        obtain ⟨h1, _⟩ := h
        rw [Option.some_inj] at h1
        subst h1
        have := getItem_fields _ _ _ _ hit
        simpa using this
  · intro h
    unfold getPrev at h
    split at h
    · simp at h
    · split at h
      · exact absurd h (by simp)
      · rename_i it' hit
        rw [Option.some_inj, Prod.mk.injEq] at h
        obtain ⟨h1, _⟩ := h
        rw [Option.some_inj] at h1
        subst h1
        have := getItem_fields _ _ _ _ hit
        simpa using this
  · intro s₁ h
    obtain ⟨_, _, _, _, fo, hfo, hfe, _⟩ := startEditing_some s s₁ h
    exact ⟨fo, hfo, hfe⟩

/-- C1 (amended): after a successful store-change resync (`sig_mod`), the
walker's name list equals the store's key set sorted in ascending
lexicographic order, any in-progress edit is cancelled, and the focus index
— which `sig_mod` reuses unchanged — is a valid index into the new list.
The resync succeeds exactly when the recomputed list still covers the old
index; if the key set shrinks to at most the previously focused index,
`sig_mod` raises an uncaught IndexError instead of clamping (see the
counterexample). -/
theorem claim_C1 (s s' : PanelState) (h : sigMod s = some s') :
    s'.walker.opts = sortedKeys s.store ∧
    List.Sorted pyLe s'.walker.opts ∧
    s'.walker.opts.Perm s.store.keys ∧
    s'.walker.editing = false ∧
    (∃ fo, s'.walker.focusObj = some fo ∧ fo.editing = false ∧
      fo.editText = none) ∧
    s'.walker.index = s.walker.index ∧
    s'.walker.index < s'.walker.opts.length := by
  unfold sigMod at h
  split at h
  · exact absurd h (by simp)
  · have hs := setFocus_some _ _ _ h
    obtain ⟨_, h2, _, h4, h5, h6, hfo⟩ := hs
    have hopts : s'.walker.opts = sortedKeys s.store := by
      rw [h2]
    refine ⟨hopts, ?_, ?_, h5, hfo, h4, ?_⟩
    · rw [hopts]
      exact List.sorted_insertionSort pyLe s.store.keys
    · rw [hopts]
      exact List.perm_insertionSort pyLe s.store.keys
    · rw [hopts, h4]
      simpa using h6

/-- C6: for every well-formed cursor over a list of length `n` and every
valid position, `get_next(pos)` returns `(None, None)` exactly when
`pos ≥ n - 1` and otherwise the freshly built row at `pos + 1` together
with `pos + 1`; `get_prev(pos)` returns `(None, None)` exactly when
`pos ≤ 0` and otherwise the row at `pos - 1` together with `pos - 1`. -/
theorem claim_C6 (s : PanelState) (hWF : WF s) (pos : Nat)
    (hpos : pos < s.walker.opts.length) :
    (getNext s pos = some (none, none) ↔ s.walker.opts.length ≤ pos + 1) ∧
    (pos + 1 < s.walker.opts.length →
      ∃ it, getItem s (pos + 1) false = some it ∧
        getNext s pos = some (some it, some (pos + 1))) ∧
    (getPrev s pos = some (none, none) ↔ pos = 0) ∧
    (∀ p, pos = p + 1 →
      ∃ it, getItem s p false = some it ∧
        getPrev s pos = some (some it, some p)) := by
  refine ⟨?_, ?_, ?_, ?_⟩
  · by_cases hle : s.walker.opts.length ≤ pos + 1
    · simp [getNext, hle]
    · have hlt : pos + 1 < s.walker.opts.length := by omega
      obtain ⟨it, hit⟩ := getItem_isSome s hWF (pos + 1) false hlt
      simp [getNext, hle, hit]
  · intro hlt
    obtain ⟨it, hit⟩ := getItem_isSome s hWF (pos + 1) false hlt
    refine ⟨it, hit, ?_⟩
    have hnle : ¬ s.walker.opts.length ≤ pos + 1 := by omega
    simp [getNext, hnle, hit]
  · cases pos with
    | zero => simp [getPrev]
    | succ p =>
      have hplt : p < s.walker.opts.length := by omega
      obtain ⟨it, hit⟩ := getItem_isSome s hWF p false hplt
      simp [getPrev, hit]
  · intro p hp
    subst hp
    have hplt : p < s.walker.opts.length := by omega
    obtain ⟨it, hit⟩ := getItem_isSome s hWF p false hplt
    refine ⟨it, hit, ?_⟩
    simp [getPrev, hit]

theorem can_edit_inplace_of_choices (opt : Opt) (h : opt.choices ≠ []) :
    can_edit_inplace opt = false := by
  unfold can_edit_inplace
  simp [h]

theorem can_edit_inplace_of_seqStr (opt : Opt) (h : opt.typespec = .seqStr)
    (hc : opt.choices = []) : can_edit_inplace opt = false := by
  unfold can_edit_inplace
  rw [h, hc]
  decide

theorem keypress_select_bool (setFn : SetFn) (s : PanelState) (foc : Item)
    (hNav : s.walker.editing = false) (hF : s.walker.focusObj = some foc)
    (hb : foc.opt.typespec = .boolT) :
    keypress setFn s "m_select" =
      (match setFocus { s with store := s.store.toggler foc.opt.name }
          s.walker.index with
       | none => KeyResult.err .indexError
       | some s₁ => KeyResult.ok s₁ [] [] (some "m_select")) := by
  unfold keypress
  simp [hNav, hF, hb]

theorem editingOf_select_bool (setFn : SetFn) (s : PanelState) (foc : Item)
    (hNav : s.walker.editing = false) (hF : s.walker.focusObj = some foc)
    (hb : foc.opt.typespec = .boolT) :
    (keypress setFn s "m_select").editingOf = false := by
  rw [keypress_select_bool setFn s foc hNav hF hb]
  cases hsf : setFocus { s with store := s.store.toggler foc.opt.name }
      s.walker.index with
  | none => rfl
  | some s₁ =>
    have he := (setFocus_some _ _ _ hsf).2.2.2.2.1
    simp [KeyResult.editingOf, he]

/-- C3: the editing flag can only become true for an option that has no
choices and whose typespec is `str`, `int`, `Optional[str]` or
`Optional[int]`: for every focused option whose typespec is `bool`, or that
carries a choices set, or whose typespec is `Sequence[str]`, the `m_select`
dispatch never calls `start_editing`, so the cursor is never left in
free-text edit mode. -/
theorem claim_C3 (setFn : SetFn) (s : PanelState) (foc : Item)
    (hNav : s.walker.editing = false) (hF : s.walker.focusObj = some foc)
    (hBad : foc.opt.typespec = .boolT ∨ foc.opt.choices ≠ [] ∨
      foc.opt.typespec = .seqStr) :
    (keypress setFn s "m_select").editingOf = false := by
  rcases hBad with hb | hc | hsq
  · exact editingOf_select_bool setFn s foc hNav hF hb
  · by_cases hb : foc.opt.typespec = .boolT
    · exact editingOf_select_bool setFn s foc hNav hF hb
    · have hcei := can_edit_inplace_of_choices foc.opt hc
      unfold keypress
      simp [hNav, hF, hb, hcei, hc, KeyResult.editingOf]
  · by_cases hb : foc.opt.typespec = .boolT
    · exact editingOf_select_bool setFn s foc hNav hF hb
    · by_cases hc : foc.opt.choices = []
      · have hcei := can_edit_inplace_of_seqStr foc.opt hsq hc
        unfold keypress
        simp [hNav, hF, hb, hcei, hc, hsq, KeyResult.editingOf]
      · have hcei := can_edit_inplace_of_choices foc.opt hc
        unfold keypress
        simp [hNav, hF, hb, hcei, hc, KeyResult.editingOf]

/-- C10: the boolean-type check precedes the choices check in the
`m_select` dispatch: for every focused option whose typespec is `bool`
(even one that also declares choices), the keypress toggles the option in
the store and re-applies `set_focus` at the current index, and never opens
the choice-picker overlay. -/
theorem claim_C10 (setFn : SetFn) (s : PanelState) (foc : Item)
    (hNav : s.walker.editing = false) (hF : s.walker.focusObj = some foc)
    (hb : foc.opt.typespec = .boolT) :
    keypress setFn s "m_select" =
      (match setFocus { s with store := s.store.toggler foc.opt.name }
          s.walker.index with
       | none => KeyResult.err .indexError
       | some s₁ => KeyResult.ok s₁ [] [] (some "m_select")) ∧
    (keypress setFn s "m_select").overlaysOf = [] := by
  have h := keypress_select_bool setFn s foc hNav hF hb
  refine ⟨h, ?_⟩
  rw [h]
  cases hsf : setFocus { s with store := s.store.toggler foc.opt.name }
      s.walker.index with
  | none => rfl
  | some s₁ => rfl

/-- C8: when `m_select` is pressed in navigating mode on a focused option
whose typespec is not `bool`, that is not in-place editable, that has no
choices, and whose typespec is not `Sequence[str]`, the dispatcher raises
`NotImplementedError` rather than silently ignoring the key. -/
theorem claim_C8 (setFn : SetFn) (s : PanelState) (foc : Item)
    (hNav : s.walker.editing = false) (hF : s.walker.focusObj = some foc)
    (h1 : foc.opt.typespec ≠ .boolT) (h2 : can_edit_inplace foc.opt = false)
    (h3 : foc.opt.choices = []) (h4 : foc.opt.typespec ≠ .seqStr) :
    keypress setFn s "m_select" = .err .notImplemented := by
  unfold keypress
  simp [hNav, hF, h1, h2, h3, h4]

/-- C2: for every commit keypress (`enter`) while editing, the panel
attempts `options.set("<name>=<value>")` with the edit buffer; if the store
raises a validation error, the error text is surfaced as a status message
and the store (hence the option's value) is unchanged; on success the
updated store is installed; in both cases `stop_editing` runs, so edit mode
is always exited after a commit attempt. -/
theorem claim_C2 (setFn : SetFn) (s : PanelState) (foc : Item) (v : String)
    (hE : s.walker.editing = true) (hF : s.walker.focusObj = some foc)
    (hT : foc.editText = some v) :
    (∀ msg, setFn s.store (foc.opt.name ++ "=" ++ v) = .error msg →
      keypress setFn s "enter" =
        (match stopEditing s with
         | none => KeyResult.err .indexError
         | some s₁ => KeyResult.ok s₁ [msg] [] none) ∧
      (∀ s₁, stopEditing s = some s₁ →
        s₁.store = s.store ∧ s₁.walker.editing = false)) ∧
    (∀ st₁, setFn s.store (foc.opt.name ++ "=" ++ v) = .ok st₁ →
      keypress setFn s "enter" =
        (match stopEditing { s with store := st₁ } with
         | none => KeyResult.err .indexError
         | some s₁ => KeyResult.ok s₁ [] [] none)) ∧
    (keypress setFn s "enter").editingOf = false := by
  have hred : keypress setFn s "enter" =
      (match setFn s.store (foc.opt.name ++ "=" ++ v) with
       | .ok st₁ =>
         (match stopEditing { s with store := st₁ } with
          | none => KeyResult.err .indexError
          | some s₁ => KeyResult.ok s₁ [] [] none)
       | .error msg =>
         (match stopEditing s with
          | none => KeyResult.err .indexError
          | some s₁ => KeyResult.ok s₁ [msg] [] none)) := by
    unfold keypress
    simp [hE, hF, hT]
  refine ⟨?_, ?_, ?_⟩
  · intro msg hmsg
    refine ⟨by rw [hred, hmsg], ?_⟩
    intro s₁ hs₁
    have hst := stopEditing_some s s₁ hs₁
    exact ⟨hst.1, hst.2.2.2.1⟩
  · intro st₁ hok
    rw [hred, hok]
  · rw [hred]
    cases hset : setFn s.store (foc.opt.name ++ "=" ++ v) with
    | ok st₁ =>
      cases hstop : stopEditing { s with store := st₁ } with
      | none => simp [KeyResult.editingOf, hstop]
      | some s₁ =>
        have he := (stopEditing_some _ _ hstop).2.2.2.1
        simp [KeyResult.editingOf, hstop, he]
    | error msg =>
      cases hstop : stopEditing s with
      | none => simp [KeyResult.editingOf, hstop]
      | some s₁ =>
        have he := (stopEditing_some _ _ hstop).2.2.2.1
        simp [KeyResult.editingOf, hstop, he]

/-- C5: the display text computed for an option's row is the literal
`"true"`/`"false"` when its typespec is `bool`; the empty string when its
current value is falsy (and not bool-typed); the `pformat` pretty-printed
dump when its typespec is `Sequence[str]` (and the value is truthy); and
the value's natural string form `str(value)` otherwise. -/
theorem claim_C5 (opt : Opt) :
    (opt.typespec = .boolT →
      displayVal opt = (if opt.value.truthy then "true" else "false")) ∧
    (opt.typespec ≠ .boolT → opt.value.truthy = false →
      displayVal opt = "") ∧
    (opt.typespec = .seqStr → opt.value.truthy = true →
      displayVal opt = pformat opt.value.seqItems) ∧
    (opt.typespec ≠ .boolT → opt.typespec ≠ .seqStr →
      opt.value.truthy = true → displayVal opt = opt.value.pyStr) := by
  refine ⟨?_, ?_, ?_, ?_⟩
  · intro h
    simp [displayVal, h]
  · intro h1 h2
    simp [displayVal, h1, h2]
  · intro h1 h2
    have hb : opt.typespec ≠ .boolT := by
      rw [h1]
      decide
    simp [displayVal, h1, h2, hb]
  · intro h1 h2 h3
    simp [displayVal, h1, h2, h3]

/-! Witnesses and the counterexample, on the concrete demo states. -/

/-- Counterexample for C1 as stated: in `c1Bad` the store's key set shrank
to a single option while the walker still focuses index 1; `sig_mod` reuses
the old index unchanged, so the resync raises an uncaught IndexError
(modelled as `none`) instead of producing a state with a valid focus
index — contradicting "focusIndex is a valid index into the new list for
every store state, including one whose key set shrank below the previously
focused index". -/
theorem claim_C1_counterexample :
    sigMod c1Bad = none ∧ c1Bad.store.keys = ["timeout"] ∧
    c1Bad.walker.index = 1 := by
  decide

/-- Witness for C1 (amended) at a concrete resync that succeeds. -/
theorem claim_C1_witness :
    c1Out.walker.opts = sortedKeys c1In.store ∧
    List.Sorted pyLe c1Out.walker.opts ∧
    c1Out.walker.opts.Perm c1In.store.keys ∧
    c1Out.walker.editing = false ∧
    (∃ fo, c1Out.walker.focusObj = some fo ∧ fo.editing = false ∧
      fo.editText = none) ∧
    c1Out.walker.index = c1In.walker.index ∧
    c1Out.walker.index < c1Out.walker.opts.length :=
  claim_C1 c1In c1Out (by decide)

/-- Witness for C2: committing a rejected edit surfaces the error text,
leaves the store untouched and exits edit mode. -/
theorem claim_C2_witness :
    keypress failSet c2In "enter" =
      (match stopEditing c2In with
       | none => KeyResult.err .indexError
       | some s₁ => KeyResult.ok s₁ ["invalid value"] [] none) ∧
    (keypress failSet c2In "enter").editingOf = false := by
  have h := claim_C2 failSet c2In timeoutEditItem "5" rfl rfl (by decide)
  exact ⟨(h.1 "invalid value" rfl).1, h.2.2⟩

/-- Witness for C3 at a focused `Sequence[str]` option. -/
theorem claim_C3_witness :
    (keypress okSet c3In "m_select").editingOf = false :=
  claim_C3 okSet c3In seqItem rfl rfl (Or.inr (Or.inr (by decide)))

/-- Witness for C4 at a concrete in-range `set_focus` call. -/
theorem claim_C4_witness :
    c4Out.walker.editing = false ∧ c4Out.walker.index = 2 ∧
    (∃ fo, c4Out.walker.focusObj = some fo ∧ fo.editing = false ∧
      fo.editText = none) :=
  claim_C4 c4In 2 c4Out (by decide)

/-- Witness for C5 at one option of each display category. -/
theorem claim_C5_witness :
    displayVal optVerbose = "false" ∧
    displayVal optEmptyStr = "" ∧
    displayVal optScripts = pformat (OptValue.vSeq ["a.py"]).seqItems ∧
    displayVal optTimeout = "5" := by
  refine ⟨?_, ?_, ?_, ?_⟩
  · exact ((claim_C5 optVerbose).1 rfl).trans (by decide)
  · exact (claim_C5 optEmptyStr).2.1 (by decide) (by decide)
  · exact (claim_C5 optScripts).2.2.1 rfl (by decide)
  · exact ((claim_C5 optTimeout).2.2.2 (by decide) (by decide)
      (by decide)).trans (by decide)

/-- Witness for C6 over the six sorted demo names: boundary behaviour at
both ends and interior traversal in both directions. -/
theorem claim_C6_witness :
    getNext c6In 5 = some (none, none) ∧
    getPrev c6In 0 = some (none, none) ∧
    (∃ it, getItem c6In 1 false = some it ∧
      getNext c6In 0 = some (some it, some 1)) ∧
    (∃ it, getItem c6In 4 false = some it ∧
      getPrev c6In 5 = some (some it, some 4)) := by
  have h5 := claim_C6 c6In (by decide) 5 (by decide)
  have h0 := claim_C6 c6In (by decide) 0 (by decide)
  exact ⟨h5.1.mpr (by decide), h0.2.2.1.mpr rfl, h0.2.1 (by decide),
    h5.2.2.2 4 rfl⟩

/-- Witness for C7 at a concrete `start_editing` / `stop_editing` pair. -/
theorem claim_C7_witness :
    c7Out.store = c7In.store ∧ c7Out.walker.index = c7In.walker.index ∧
    c7Out.walker.editing = false ∧
    (∃ fo, c7Out.walker.focusObj = some fo ∧ fo.editing = false ∧
      fo.editText = none) :=
  claim_C7 c7In c7Mid c7Out (by decide) (by decide)

/-- Witness for C8 at a focused option of an unknown type. -/
theorem claim_C8_witness :
    keypress okSet c8In "m_select" = .err .notImplemented :=
  claim_C8 okSet c8In otherItem rfl rfl (by decide) (by decide) rfl
    (by decide)

/-- Witness for C9: a concrete `get_next` row is in display mode, and a
concrete `start_editing` focus object is in edit mode. -/
theorem claim_C9_witness :
    (c9Item.editing = false ∧ c9Item.editText = none) ∧
    (∃ fo, c9Mid.walker.focusObj = some fo ∧ fo.editing = true) := by
  have h := claim_C9 c9In 0 c9Item (some 1)
  exact ⟨h.1 (by decide), h.2.2 c9Mid (by decide)⟩

/-- Witness for C10 at a boolean option that also declares choices. -/
theorem claim_C10_witness :
    keypress okSet c10In "m_select" =
      (match setFocus
          { c10In with store := c10In.store.toggler optBoolChoices.name }
          c10In.walker.index with
       | none => KeyResult.err .indexError
       | some s₁ => KeyResult.ok s₁ [] [] (some "m_select")) ∧
    (keypress okSet c10In "m_select").overlaysOf = [] :=
  claim_C10 okSet c10In bcItem rfl rfl rfl

end MitmOptions
